import Mathlib

/-!
Verification of the continuity-ledger engine, rewind controller, generation
orchestrator and resilient response parser of the book-generator service.

JavaScript strings are embedded as `List Char`; JavaScript objects used as
string-keyed maps are embedded as association lists (`StrMap`) whose lookup
returns the first binding, mirroring the fact that a JS object holds at most
one binding per key.  Fallible operations return `Except`/`Option`.
-/

/-- Whitespace recognised by JavaScript `String.prototype.trim`
(the ASCII part, which is all the inputs considered here contain). -/
def isJsWs (c : Char) : Bool :=
  c = ' ' || c = '\t' || c = '\n' || c = '\r' ||
  c = Char.ofNat 11 || c = Char.ofNat 12 || c = Char.ofNat 160 || c = Char.ofNat 65279

/-- Whitespace recognised inside JSON text by `JSON.parse`. -/
def isJsonWs (c : Char) : Bool :=
  c = ' ' || c = '\t' || c = '\n' || c = '\r'

/-- `s.trim()`: drop leading and trailing whitespace. -/
def jsTrim (s : List Char) : List Char :=
  ((s.dropWhile isJsWs).reverse.dropWhile isJsWs).reverse

/-- Number of non-whitespace characters of a string (used to state the
approval-threshold claim, which speaks of non-whitespace characters). -/
def countNonWs (s : List Char) : Nat :=
  (s.filter (fun c => !isJsWs c)).length

/-- ASCII lower-casing, for the case-insensitive fence regex. -/
def toLowerAscii (c : Char) : Char :=
  if 'A' ≤ c ∧ c ≤ 'Z' then Char.ofNat (c.toNat + 32) else c

/-- `s.indexOf(c)` on a one-character needle: first index, `-1` if absent. -/
def indexOfChar (s : List Char) (c : Char) : Int :=
  match s.findIdx? (fun d => d = c) with
  | some n => (n : Int)
  | none => -1

/-- `s.lastIndexOf(c)` on a one-character needle: last index, `-1` if absent. -/
def lastIndexOfChar (s : List Char) (c : Char) : Int :=
  match s.reverse.findIdx? (fun d => d = c) with
  | some n => ((s.length - 1 - n : Nat) : Int)
  | none => -1

/-- `s.slice(a, b)` for the non-negative arguments the parser uses. -/
def jsSlice (s : List Char) (a b : Int) : List Char :=
  (s.take b.toNat).drop a.toNat

/-- Fuel-indexed core of `removeAll`; each step either emits or skips at
least one character, so `s.length` fuel always suffices. -/
def removeAllFuel (pat : List Char) : Nat → List Char → List Char
  | 0, s => s
  | _ + 1, [] => []
  | fuel + 1, c :: rest =>
    if pat ≠ [] ∧ pat.isPrefixOf (c :: rest) then
      removeAllFuel pat fuel (List.drop pat.length (c :: rest))
    else
      c :: removeAllFuel pat fuel rest

/-- `s.replace(pat, "")` with a global plain-text pattern: remove every
(non-overlapping, leftmost-first) occurrence of `pat`. -/
def removeAll (s : List Char) (pat : List Char) : List Char :=
  removeAllFuel pat s.length s

/-- Fuel-indexed core of `removeAllCI`. -/
def removeAllCIFuel (pat : List Char) : Nat → List Char → List Char
  | 0, s => s
  | _ + 1, [] => []
  | fuel + 1, c :: rest =>
    if pat ≠ [] ∧ ((c :: rest).take pat.length).map toLowerAscii = pat then
      removeAllCIFuel pat fuel (List.drop pat.length (c :: rest))
    else
      c :: removeAllCIFuel pat fuel rest

/-- `s.replace(pat, "")` with a global case-insensitive plain-text pattern
(`pat` is given in lower case): remove every occurrence up to ASCII case. -/
def removeAllCI (s : List Char) (pat : List Char) : List Char :=
  removeAllCIFuel pat s.length s

/-- JSON values.  Numbers keep their source lexeme: no claim here depends on
numeric-value semantics, only on which texts parse and on structural equality
of the parsed object. -/
inductive Json where
  | null : Json
  | bool (b : Bool) : Json
  | num (lexeme : List Char) : Json
  | str (s : List Char) : Json
  | arr (elems : List Json) : Json
  | obj (members : List (List Char × Json)) : Json

def skipJsonWs (s : List Char) : List Char :=
  s.dropWhile isJsonWs

def hexDigitVal (c : Char) : Option Nat :=
  if '0' ≤ c ∧ c ≤ '9' then some (c.toNat - 48)
  else if 'a' ≤ c ∧ c ≤ 'f' then some (c.toNat - 87)
  else if 'A' ≤ c ∧ c ≤ 'F' then some (c.toNat - 55)
  else none

def escChar (c : Char) : Option Char :=
  if c = '"' then some '"'
  else if c = '\\' then some '\\'
  else if c = '/' then some '/'
  else if c = 'b' then some (Char.ofNat 8)
  else if c = 'f' then some (Char.ofNat 12)
  else if c = 'n' then some '\n'
  else if c = 'r' then some '\r'
  else if c = 't' then some '\t'
  else none

/-- Digits of a JSON number after the first integer digit. -/
def numTail (s : List Char) : List Char × List Char :=
  let ds := s.takeWhile Char.isDigit
  (ds, s.drop ds.length)

/-- Fraction part `.digits` of a JSON number, if present and well-formed. -/
def pFrac (s : List Char) : Option (List Char × List Char) :=
  match s with
  | '.' :: r =>
    let ds := r.takeWhile Char.isDigit
    if ds = [] then none else some ('.' :: ds, r.drop ds.length)
  | _ => some ([], s)

/-- Exponent part `[eE][+-]?digits` of a JSON number, if present. -/
def pExp (s : List Char) : Option (List Char × List Char) :=
  match s with
  | c :: r =>
    if c = 'e' ∨ c = 'E' then
      let (sgn, r2) :=
        match r with
        | d :: r2 => if d = '+' ∨ d = '-' then ([d], r2) else (([] : List Char), d :: r2)
        | [] => ([], [])
      let ds := r2.takeWhile Char.isDigit
      if ds = [] then none else some (c :: (sgn ++ ds), r2.drop ds.length)
    else some ([], c :: r)
  | [] => some ([], [])

/-- A JSON number per the `JSON.parse` grammar; returns its lexeme. -/
def pNum (s : List Char) : Option (Json × List Char) :=
  let (neg, s1) :=
    match s with
    | '-' :: r => ((['-'] : List Char), r)
    | _ => ([], s)
  match s1 with
  | [] => none
  | d :: r =>
    if d = '0' then
      match pFrac r with
      | some (fr, r2) =>
        match pExp r2 with
        | some (ex, r3) => some (Json.num (neg ++ ['0'] ++ fr ++ ex), r3)
        | none => none
      | none => none
    else if d.isDigit then
      let (ds, r1) := numTail r
      match pFrac r1 with
      | some (fr, r2) =>
        match pExp r2 with
        | some (ex, r3) => some (Json.num (neg ++ (d :: ds) ++ fr ++ ex), r3)
        | none => none
      | none => none
    else none

mutual

/-- One JSON value, after optional leading whitespace (fuel-indexed
recursive-descent mirror of `JSON.parse`). -/
def pVal : Nat → List Char → Option (Json × List Char)
  | 0, _ => none
  | n + 1, s =>
    match skipJsonWs s with
    | [] => none
    | c :: rest =>
      if c = '{' then pObj n rest
      else if c = '[' then pArr n rest
      else if c = '"' then
        match pStrBody n rest with
        | some (cs, r) => some (Json.str cs, r)
        | none => none
      else if c = 't' then
        match rest with
        | 'r' :: 'u' :: 'e' :: r => some (Json.bool true, r)
        | _ => none
      else if c = 'f' then
        match rest with
        | 'a' :: 'l' :: 's' :: 'e' :: r => some (Json.bool false, r)
        | _ => none
      else if c = 'n' then
        match rest with
        | 'u' :: 'l' :: 'l' :: r => some (Json.null, r)
        | _ => none
      else if c = '-' ∨ c.isDigit then pNum (c :: rest)
      else none

/-- Object body, after the opening brace.  `JSON.parse` resolves duplicate
keys last-wins; duplicate keys never occur in the texts considered here and
the member list is kept as read. -/
def pObj : Nat → List Char → Option (Json × List Char)
  | 0, _ => none
  | n + 1, s =>
    match skipJsonWs s with
    | '}' :: r => some (Json.obj [], r)
    | s1 => pMembers n s1 []

def pMembers : Nat → List Char → List (List Char × Json) → Option (Json × List Char)
  | 0, _, _ => none
  | n + 1, s, acc =>
    match skipJsonWs s with
    | '"' :: r =>
      match pStrBody n r with
      | some (key, r2) =>
        match skipJsonWs r2 with
        | ':' :: r3 =>
          match pVal n r3 with
          | some (v, r4) =>
            match skipJsonWs r4 with
            | ',' :: r5 => pMembers n r5 (acc ++ [(key, v)])
            | '}' :: r5 => some (Json.obj (acc ++ [(key, v)]), r5)
            | _ => none
          | none => none
        | _ => none
      | none => none
    | _ => none

/-- Array body, after the opening bracket. -/
def pArr : Nat → List Char → Option (Json × List Char)
  | 0, _ => none
  | n + 1, s =>
    match skipJsonWs s with
    | ']' :: r => some (Json.arr [], r)
    | s1 => pElems n s1 []

def pElems : Nat → List Char → List Json → Option (Json × List Char)
  | 0, _, _ => none
  | n + 1, s, acc =>
    match pVal n s with
    | some (v, r) =>
      match skipJsonWs r with
      | ',' :: r2 => pElems n r2 (acc ++ [v])
      | ']' :: r2 => some (Json.arr (acc ++ [v]), r2)
      | _ => none
    | none => none

/-- String body, after the opening quote; produces the decoded characters. -/
def pStrBody : Nat → List Char → Option (List Char × List Char)
  | 0, _ => none
  | n + 1, s =>
    match s with
    | [] => none
    | c :: rest =>
      if c = '"' then some ([], rest)
      else if c = '\\' then
        match rest with
        | [] => none
        | e :: r2 =>
          if e = 'u' then
            match r2 with
            | h1 :: h2 :: h3 :: h4 :: r6 =>
              match hexDigitVal h1, hexDigitVal h2, hexDigitVal h3, hexDigitVal h4 with
              | some v1, some v2, some v3, some v4 =>
                match pStrBody n r6 with
                | some (cs, r) =>
                  some (Char.ofNat (((v1 * 16 + v2) * 16 + v3) * 16 + v4) :: cs, r)
                | none => none
              | _, _, _, _ => none
            | _ => none
          else
            match escChar e with
            | some d =>
              match pStrBody n r2 with
              | some (cs, r) => some (d :: cs, r)
              | none => none
            | none => none
      else if c.toNat < 32 then none
      else
        match pStrBody n rest with
        | some (cs, r) => some (c :: cs, r)
        | none => none

end

/-- `JSON.parse(s)`: one JSON value, surrounded only by whitespace. -/
def parseJson (s : List Char) : Option Json :=
  match pVal (2 * s.length + 4) s with
  | some (v, rest) => if skipJsonWs rest = [] then some v else none
  | none => none

/-- The cleaning step of `safeJsonParse`: strip ```json fences
(case-insensitively) and bare ``` fences, then trim. -/
def cleanText (text : List Char) : List Char :=
  jsTrim (removeAll (removeAllCI text ("```json".data)) ("```".data))

/-- The end-truncation salvage loop of `safeJsonParse` (`engine.js`):
up to 30 parse attempts, trimming the candidate back to its last newline
(the `idx > first` comparison reuses `first`, an index into the cleaned
text, exactly as the source does), else dropping one character; the loop
gives up when the candidate has length at most 2. -/
def salvage (first : Int) : Nat → List Char → Option Json
  | 0, _ => none
  | n + 1, cand =>
    match parseJson cand with
    | some v => some v
    | none =>
      let idx := lastIndexOfChar cand '\n'
      let cand' :=
        if first < idx then jsTrim (jsSlice cand 0 idx)
        else jsTrim (jsSlice cand 0 ((cand.length : Int) - 1))
      if cand'.length ≤ 2 then none else salvage first n cand'

/-- `safeJsonParse` (`engine.js`, current revision): strip fences, try a
direct parse, then slice from the first `\x7b` to the last `\x7d` and run the
salvage loop; every failure carries the first 400 characters of the cleaned
text. -/
def safeJsonParse (text : List Char) : Except (List Char) Json :=
  let cleaned := cleanText text
  match parseJson cleaned with
  | some v => Except.ok v
  | none =>
    let first := indexOfChar cleaned '{'
    let last := lastIndexOfChar cleaned '}'
    if first = -1 ∨ last = -1 ∨ last ≤ first then
      Except.error (("Model did not return JSON. First 400 chars: ".data) ++ cleaned.take 400)
    else
      match salvage first 30 (jsSlice cleaned first (last + 1)) with
      | some v => Except.ok v
      | none =>
        Except.error
          (("Unable to parse JSON from model output. First 400 chars: ".data) ++ cleaned.take 400)

def exceptIsOk : Except ε α → Bool
  | Except.ok _ => true
  | Except.error _ => false

/-- A JavaScript object used as a string-keyed map: an association list with
at most one effective binding per key (lookup takes the first binding). -/
abbrev StrMap := List (String × String)

/-- Lookup in a `StrMap` (first binding wins, as in a JS object). -/
def alookup (m : StrMap) (k : String) : Option String :=
  match m with
  | [] => none
  | (k0, v0) :: rest => if k0 = k then some v0 else alookup rest k

/-- JS object spread `\x7b...base, ...patch\x7d`: base keys in their order with
patch values overriding, followed by the patch keys new to base, in patch
order. -/
def objSpread : StrMap → StrMap → StrMap
  | [], patch => patch
  | (k, v) :: rest, patch =>
    (k, (alookup patch k).getD v) :: objSpread rest (patch.filter (fun kv => kv.1 ≠ k))

/-- `new Set(xs)` insertion followed by `Array.from`: walk the list, skip an
element already seen, keep the first occurrence of each element in encounter
order (`seen` holds the elements inserted so far). -/
def dedupSeen (seen : List String) : List String → List String
  | [] => []
  | x :: xs => if x ∈ seen then dedupSeen seen xs else x :: dedupSeen (x :: seen) xs

/-- `Array.from(new Set(xs))`. -/
def dedupFirst (xs : List String) : List String :=
  dedupSeen [] xs

/-- The project-wide continuity ledger. -/
structure Ledger where
  charactersState : StrMap
  locationsState : StrMap
  timeline : List String
  openLoops : List String
deriving Repr, DecidableEq

/-- `defaultLedger()` from `storage.js`. -/
def defaultLedger : Ledger := ⟨[], [], [], []⟩

/-- A chapter's continuity fact object.  Every field is optional, mirroring
the schemaless JS object: `timeline` is the array read by the `storage.js`
merge, `timelineEvents` the one read by the other merge revisions; `source`
is the provenance tag. -/
structure Continuity where
  charactersState : Option StrMap
  locationsState : Option StrMap
  timeline : Option (List String)
  timelineEvents : Option (List String)
  openLoops : Option (List String)
  source : Option String
deriving Repr, DecidableEq

/-- The continuity object with no fields present (JS `\x7b\x7d`). -/
def emptyContinuity : Continuity := ⟨none, none, none, none, none, none⟩

/-- `mergeLedger` from `src/lib/storage.js` (lines 326-348): overlay the two
state maps, append `patch.timeline`, and append `patch.openLoops` by plain
concatenation (this revision does not deduplicate). -/
def mergeLedger (base : Ledger) (patch : Continuity) : Ledger :=
  { charactersState := objSpread base.charactersState (patch.charactersState.getD [])
    locationsState := objSpread base.locationsState (patch.locationsState.getD [])
    timeline :=
      match patch.timeline with
      | some t => base.timeline ++ t
      | none => base.timeline
    openLoops :=
      match patch.openLoops with
      | some l => base.openLoops ++ l
      | none => base.openLoops }

/-- `mergeContinuityLedger` from `engine.js` (ledger-level core): overlay the
state maps when present as objects, append `timelineEvents`, and union
`openLoops` through a `Set` (first occurrence kept, encounter order). -/
def mergeContinuityLedger (ledger : Ledger) (continuity : Continuity) : Ledger :=
  { charactersState :=
      match continuity.charactersState with
      | some cs => objSpread ledger.charactersState cs
      | none => ledger.charactersState
    locationsState :=
      match continuity.locationsState with
      | some ls => objSpread ledger.locationsState ls
      | none => ledger.locationsState
    timeline :=
      match continuity.timelineEvents with
      | some t => ledger.timeline ++ t
      | none => ledger.timeline
    openLoops :=
      match continuity.openLoops with
      | some l => dedupFirst (ledger.openLoops ++ l)
      | none => ledger.openLoops }

/-- `mergeLedger` from the `part_000` storage revision (lines 246-264): same
rule as `mergeContinuityLedger` (it also reads `timelineEvents` and unions
`openLoops` through a `Set`). -/
def mergeLedgerV0 (ledger : Ledger) (continuity : Continuity) : Ledger :=
  { charactersState :=
      match continuity.charactersState with
      | some cs => objSpread ledger.charactersState cs
      | none => ledger.charactersState
    locationsState :=
      match continuity.locationsState with
      | some ls => objSpread ledger.locationsState ls
      | none => ledger.locationsState
    timeline :=
      match continuity.timelineEvents with
      | some t => ledger.timeline ++ t
      | none => ledger.timeline
    openLoops :=
      match continuity.openLoops with
      | some l => dedupFirst (ledger.openLoops ++ l)
      | none => ledger.openLoops }

/-- A chapter record.  `index` is `none` when the stored record's `index`
field is not a number (the malformed shape `clearAndRewindFromChapter`
guards against); text fields absent in JS are the empty string. -/
structure Chapter where
  index : Option Int
  title : String
  draftText : String
  userText : String
  continuity : Option Continuity
  approved : Bool
deriving Repr, DecidableEq

/-- The `(a, b) => a.index - b.index` comparator; a pair involving a
non-numeric index compares as equal (the `NaN` comparator result is treated
as zero). -/
def chCmp (a b : Chapter) : Int :=
  match a.index, b.index with
  | some i, some j => i - j
  | _, _ => 0

/-- Stable insertion into a sorted list: the inserted (originally earlier)
element goes before every element not strictly below it. -/
def insertSorted (x : Chapter) : List Chapter → List Chapter
  | [] => [x]
  | y :: ys => if chCmp y x < 0 then y :: insertSorted x ys else x :: y :: ys

/-- `[...chapters].sort((a, b) => a.index - b.index)`: stable ascending sort
by index. -/
def sortByIndex : List Chapter → List Chapter
  | [] => []
  | x :: xs => insertSorted x (sortByIndex xs)

/-- The `c.index >= stopBeforeIndex` break guard; `none` as the cutoff is
`Infinity` (never reached), and a non-numeric chapter index never compares
at-or-beyond. -/
def atOrBeyondStop (c : Chapter) (stop : Option Int) : Bool :=
  match stop, c.index with
  | some s, some i => s ≤ i
  | _, _ => false

/-- The fold inside `rebuildLedgerFromChapters`: walk the ordered chapters,
stop at the cutoff, and merge each present continuity object. -/
def rebuildGo : Ledger → Option Int → List Chapter → Ledger
  | led, _, [] => led
  | led, stop, c :: rest =>
    if atOrBeyondStop c stop then led
    else
      rebuildGo
        (match c.continuity with
         | some cont => mergeLedger led cont
         | none => led)
        stop rest

/-- `rebuildLedgerFromChapters` from `src/lib/storage.js` (lines 385-394):
start from the default ledger, sort the chapters ascending by index, and
merge every chapter's continuity below the cutoff. -/
def rebuildLedgerFromChapters (chapters : List Chapter)
    (stopBeforeIndex : Option Int := none) : Ledger :=
  rebuildGo defaultLedger stopBeforeIndex (sortByIndex chapters)

/-- A per-chapter generation contract (only the fields the verified
operations read are carried; `index` is `none` for a malformed record). -/
structure ChapterContract where
  index : Option Int
  title : String
  mustInclude : List String
  mustAvoid : List String
  continuityFocus : List String
  endingHookIntent : String
deriving Repr, DecidableEq

/-- One outline chapter summary (the reconciliation reads `index` and
`title`). -/
structure ChapterSummary where
  index : Int
  title : String
  summary : String
deriving Repr, DecidableEq

structure Outline where
  overallArc : String
  chapterSummaries : List ChapterSummary
deriving Repr, DecidableEq

/-- The project fields the verified operations touch. -/
structure Project where
  chapters : List Chapter
  chapterContracts : List ChapterContract
  continuityLedger : Ledger
  outline : Option Outline
deriving Repr, DecidableEq

/-- Retention test of the rewind filters: keep a record whose `index` field
is not a number, otherwise keep it exactly when its index is below the
cutoff. -/
def keepBelow (k : Int) (idx : Option Int) : Bool :=
  match idx with
  | none => true
  | some i => i < k

/-- `clearAndRewindFromChapter` from `src/lib/storage.js` (lines 350-383):
filter chapters and contracts through `keepBelow`, then rebuild the ledger
from the kept chapters. -/
def clearAndRewindFromChapter (p : Project) (chapterIndex : Int) : Project :=
  let keptChapters := p.chapters.filter (fun c => keepBelow chapterIndex c.index)
  let keptContracts := p.chapterContracts.filter (fun c => keepBelow chapterIndex c.index)
  { p with
    chapters := keptChapters
    chapterContracts := keptContracts
    continuityLedger := rebuildLedgerFromChapters keptChapters }

/-- `Boolean(userText && userText.trim().length > 50)`: the approval
heuristic shared by `saveUserEdits`, `generateNextChapter` and
`regenerateChapter`. -/
def approvedHeuristic (userText : String) : Bool :=
  if userText = "" then false else decide ((jsTrim userText.data).length > 50)

/-- JS object spread of two continuity objects: fields present in the
overlay win. -/
def contSpread (base over : Continuity) : Continuity :=
  { charactersState := over.charactersState <|> base.charactersState
    locationsState := over.locationsState <|> base.locationsState
    timeline := over.timeline <|> base.timeline
    timelineEvents := over.timelineEvents <|> base.timelineEvents
    openLoops := over.openLoops <|> base.openLoops
    source := over.source <|> base.source }

/-- The chapter update of `saveUserEdits` (`part_000` lines 206-222): set
`userText` when a string is supplied, overlay a continuity override tagged
`source: "user"`, then recompute `approved` by the heuristic. -/
def saveUserEditsChapter (ch : Chapter) (text : Option String)
    (continuityOverride : Option Continuity) : Chapter :=
  let ch1 :=
    match text with
    | some t => { ch with userText := t }
    | none => ch
  let ch2 :=
    match continuityOverride with
    | some ov =>
      { ch1 with
        continuity :=
          some { contSpread (ch1.continuity.getD emptyContinuity) ov with source := some "user" } }
    | none => ch1
  { ch2 with approved := approvedHeuristic ch2.userText }

/-- The parsed payload of a chapter draft/regenerate model response;
a missing or empty `title`/`prose` is the empty string (both are falsy). -/
structure ChapterResponse where
  title : String
  prose : String
  continuity : Option Continuity
deriving Repr, DecidableEq

/-- `\x7b...(json.continuity || \x7b\x7d), source\x7d`: the response continuity with the
provenance tag forced. -/
def draftedContinuity (r : ChapterResponse) (src : String) : Continuity :=
  { r.continuity.getD emptyContinuity with source := some src }

/-- The in-place chapter update shared by `generateNextChapter` and
`regenerateChapter` (`engine.js`): `title = json.title || title`,
`draftText = json.prose || ""`, continuity replaced by the tagged response
continuity, `approved` recomputed from the (untouched) `userText`. -/
def applyDraftResponse (r : ChapterResponse) (src : String) (c : Chapter) : Chapter :=
  { c with
    title := if r.title = "" then c.title else r.title
    draftText := r.prose
    continuity := some (draftedContinuity r src)
    approved := approvedHeuristic c.userText }

/-- Mutating the first list element satisfying `P` (the object returned by
`find` is updated in place in the source). -/
def replaceFirst (P : Chapter → Bool) (f : Chapter → Chapter) : List Chapter → List Chapter
  | [] => []
  | x :: xs => if P x then f x :: xs else x :: replaceFirst P f xs

/-- `!c.draftText`: the chapter has no draft yet. -/
def isUndrafted (c : Chapter) : Bool :=
  c.draftText = ""

/-- `chapters.find((c) => !c.draftText)`: the selection step of
`generateNextChapter`. -/
def selectNextChapter (p : Project) : Option Chapter :=
  p.chapters.find? isUndrafted

/-- `generateNextChapter` (`engine.js` lines 393-498), as the pure
transformation applied once the model response `r` is parsed and the outline
is present: draft the first chapter in stored order with an empty
`draftText`, tag its continuity `source: "model"`, and merge that continuity
into the ledger; with no such chapter the project is returned unchanged. -/
def generateNextChapterApply (p : Project) (r : ChapterResponse) : Project :=
  match selectNextChapter p with
  | none => p
  | some _ =>
    { p with
      chapters := replaceFirst isUndrafted (applyDraftResponse r "model") p.chapters
      continuityLedger :=
        mergeContinuityLedger p.continuityLedger (draftedContinuity r "model") }

/-- `regenerateChapter` (`engine.js` lines 503-590), as the pure
transformation applied once the model response `r` is parsed: fails when the
outline or the target chapter is missing; otherwise updates the target
chapter in place with the response tagged `source: "model-regenerate"` and
merges that continuity into the ledger. -/
def regenerateChapterApply (p : Project) (chapterIndex : Int)
    (r : ChapterResponse) : Except String Project :=
  if p.outline.isNone then Except.error "Outline not found"
  else
    match p.chapters.find? (fun c => decide (c.index = some chapterIndex)) with
    | none => Except.error "Chapter not found"
    | some _ =>
      Except.ok
        { p with
          chapters :=
            replaceFirst (fun c => decide (c.index = some chapterIndex))
              (applyDraftResponse r "model-regenerate") p.chapters
          continuityLedger :=
            mergeContinuityLedger p.continuityLedger
              (draftedContinuity r "model-regenerate") }

/-- `new Map(chapters.map((c) => [c.index, c])).get(i)`: the last chapter
carrying the numeric index `i` (later `Map` insertions overwrite earlier
ones). -/
def lastWithIndex (chs : List Chapter) (i : Int) : Option Chapter :=
  (chs.filter (fun c => decide (c.index = some i))).getLast?

/-- The outline reconciliation (`engine.js` lines 366-381): the new summary
list decides which indices exist and their titles, while draft text, user
text, continuity and approval are carried over from the previous chapter at
the same index. -/
def reconcileChapters (old : List Chapter) (summaries : List ChapterSummary) : List Chapter :=
  summaries.map fun cs =>
    match lastWithIndex old cs.index with
    | some o =>
      { index := some cs.index, title := cs.title, draftText := o.draftText,
        userText := o.userText, continuity := o.continuity, approved := o.approved }
    | none =>
      { index := some cs.index, title := cs.title, draftText := "",
        userText := "", continuity := none, approved := false }

/-- The parsed payload of an outline model response (`json.outline` may be
absent; `json.chapterContracts || []`). -/
structure OutlineResponse where
  outline : Option Outline
  chapterContracts : List ChapterContract
deriving Repr, DecidableEq

/-- `generateOutline` (`engine.js` lines 285-388), as the pure transformation
applied once the model response is parsed: store the outline and contracts,
reconcile the chapter list by index against the previous one, and rebuild the
ledger from scratch from the reconciled list. -/
def generateOutlineApply (p : Project) (resp : OutlineResponse) : Project :=
  let summaries := (resp.outline.map Outline.chapterSummaries).getD []
  let chapters := reconcileChapters p.chapters summaries
  { p with
    outline := resp.outline
    chapterContracts := resp.chapterContracts
    chapters := chapters
    continuityLedger := rebuildLedgerFromChapters chapters }


/-- First-`some` choice: the value a key resolves to after an object spread. -/
def optOr (a b : Option α) : Option α :=
  match a with
  | some v => some v
  | none => b

theorem optOr_none (a : Option α) : optOr a none = a := by
  cases a <;> rfl

theorem dedupSeen_nil (seen : List String) : dedupSeen seen [] = [] := rfl

theorem dedupSeen_cons (seen : List String) (x : String) (xs : List String) :
    dedupSeen seen (x :: xs) =
      if x ∈ seen then dedupSeen seen xs else x :: dedupSeen (x :: seen) xs := rfl

theorem alookup_filter_ne (patch : StrMap) (k k0 : String) (h : k ≠ k0) :
    alookup (patch.filter (fun kv => kv.1 ≠ k0)) k = alookup patch k := by
  induction patch with
  | nil => rfl
  | cons kv rest ih =>
    obtain ⟨k1, v1⟩ := kv
    simp only [decide_not] at ih
    by_cases h1 : k1 = k0
    · have hk : ¬ (k1 = k) := fun hc => h (hc ▸ h1)
      simp [List.filter_cons, h1, alookup, hk, ih, Ne.symm h]
    · by_cases hk : k1 = k
      · simp [List.filter_cons, h1, alookup, hk, h]
      · simp [List.filter_cons, h1, alookup, hk, ih]

theorem alookup_objSpread (base : StrMap) (patch : StrMap) (k : String) :
    alookup (objSpread base patch) k = optOr (alookup patch k) (alookup base k) := by
  induction base generalizing patch with
  | nil => simp [objSpread, alookup, optOr_none]
  | cons kv rest ih =>
    obtain ⟨k1, v1⟩ := kv
    by_cases hk : k1 = k
    · subst hk
      simp only [objSpread, alookup, if_pos rfl]
      cases hp : alookup patch k1 <;> simp [optOr, hp]
    · simp only [objSpread, alookup]
      rw [if_neg hk, if_neg hk, ih]
      rw [alookup_filter_ne _ _ _ (fun hc => hk hc.symm)]

theorem not_mem_seen_of_mem_dedupSeen {y : String} :
    ∀ {l seen : List String}, y ∈ dedupSeen seen l → y ∉ seen := by
  intro l
  induction l with
  | nil =>
    intro seen h
    rw [dedupSeen_nil] at h
    exact absurd h (List.not_mem_nil y)
  | cons x xs ih =>
    intro seen h hseen
    by_cases hx : x ∈ seen
    · rw [dedupSeen_cons, if_pos hx] at h
      exact ih h hseen
    · rw [dedupSeen_cons, if_neg hx] at h
      cases List.mem_cons.mp h with
      | inl h0 => exact hx (h0 ▸ hseen)
      | inr h1 => exact ih h1 (List.mem_cons_of_mem _ hseen)

theorem dedupSeen_nodup (l : List String) : ∀ seen, (dedupSeen seen l).Nodup := by
  induction l with
  | nil =>
    intro seen
    rw [dedupSeen_nil]
    exact List.nodup_nil
  | cons x xs ih =>
    intro seen
    by_cases hx : x ∈ seen
    · rw [dedupSeen_cons, if_pos hx]
      exact ih seen
    · rw [dedupSeen_cons, if_neg hx]
      refine List.nodup_cons.mpr ⟨?_, ih (x :: seen)⟩
      intro hmem
      exact not_mem_seen_of_mem_dedupSeen hmem (List.mem_cons_self x seen)

theorem dedupSeen_congr (l : List String) :
    ∀ s1 s2, (∀ y, y ∈ s1 ↔ y ∈ s2) → dedupSeen s1 l = dedupSeen s2 l := by
  induction l with
  | nil => intro s1 s2 _; rfl
  | cons x xs ih =>
    intro s1 s2 h
    by_cases hx : x ∈ s1
    · rw [dedupSeen_cons, if_pos hx, dedupSeen_cons, if_pos ((h x).mp hx)]
      exact ih s1 s2 h
    · rw [dedupSeen_cons, if_neg hx, dedupSeen_cons, if_neg (fun hc => hx ((h x).mpr hc))]
      rw [ih (x :: s1) (x :: s2) (fun y => by simp [List.mem_cons, h y])]

theorem dedupSeen_append (b : List String) :
    ∀ (a : List String) (seen : List String), a.Nodup → (∀ y ∈ a, y ∉ seen) →
    dedupSeen seen (a ++ b) = a ++ dedupSeen (a.reverse ++ seen) b := by
  intro a
  induction a with
  | nil => intro seen _ _; simp
  | cons x a2 ih =>
    intro seen hnd hdisj
    rw [List.cons_append, dedupSeen_cons, if_neg (hdisj x (List.mem_cons_self x a2))]
    have hx : x ∉ a2 := (List.nodup_cons.mp hnd).1
    have hdisj2 : ∀ y ∈ a2, y ∉ x :: seen := by
      intro y hy
      simp only [List.mem_cons]
      rintro (rfl | hys)
      · exact hx hy
      · exact hdisj y (List.mem_cons_of_mem _ hy) hys
    rw [ih (x :: seen) (List.nodup_cons.mp hnd).2 hdisj2]
    simp [List.reverse_cons, List.append_assoc]

/-- A `Set`-union of a duplicate-free list with new items: the existing items
in their order, then the newly-seen items in input order. -/
theorem dedupFirst_decomp (a b : List String) (hnd : a.Nodup) :
    dedupFirst (a ++ b) = a ++ dedupSeen a b := by
  unfold dedupFirst
  rw [dedupSeen_append b a [] hnd (by simp)]
  exact congrArg _ (dedupSeen_congr b _ _ (fun y => by simp))

/-- Sort key used to state index-order properties (`getD 0` is irrelevant for
well-formed chapters, whose index is numeric). -/
def chapterIdx (c : Chapter) : Int :=
  c.index.getD 0

/-- A record with a numeric index strictly below the cutoff (malformed
records excluded), the retained-prefix notion of the rewind claims. -/
def numericallyBelow (k : Int) (idx : Option Int) : Bool :=
  match idx with
  | none => false
  | some i => decide (i < k)

theorem find_undrafted_min (l : List Chapter)
    (hs : l.Pairwise (fun c d => chapterIdx c ≤ chapterIdx d)) (next : Chapter)
    (h : l.find? isUndrafted = some next) :
    isUndrafted next = true ∧
      ∀ c ∈ l, isUndrafted c = true → chapterIdx next ≤ chapterIdx c := by
  induction l with
  | nil => simp [List.find?] at h
  | cons x xs ih =>
    cases hx : isUndrafted x with
    | true =>
      rw [List.find?_cons_of_pos _ hx] at h
      injection h with h
      subst h
      refine ⟨hx, ?_⟩
      intro c hc _
      cases List.mem_cons.mp hc with
      | inl h0 => exact h0 ▸ le_refl _
      | inr h1 => exact (List.pairwise_cons.mp hs).1 c h1
    | false =>
      rw [List.find?_cons_of_neg _ (by simp [hx])] at h
      obtain ⟨h1, h2⟩ := ih (List.pairwise_cons.mp hs).2 h
      refine ⟨h1, ?_⟩
      intro c hc hcund
      cases List.mem_cons.mp hc with
      | inl h0 =>
        rw [h0] at hcund
        rw [hcund] at hx
        cases hx
      | inr h3 => exact h2 c h3 hcund

theorem countNonWs_dropWhile (l : List Char) :
    countNonWs (l.dropWhile isJsWs) = countNonWs l := by
  induction l with
  | nil => rfl
  | cons c cs ih =>
    by_cases hc : isJsWs c = true
    · simp [List.dropWhile_cons, hc, countNonWs, List.filter_cons] at ih ⊢
      exact ih
    · simp [List.dropWhile_cons, hc]

theorem countNonWs_reverse (l : List Char) : countNonWs l.reverse = countNonWs l := by
  induction l with
  | nil => rfl
  | cons c cs ih =>
    simp only [countNonWs, List.reverse_cons, List.filter_append, List.filter_cons,
      List.length_append] at ih ⊢
    cases hc : !isJsWs c <;> simp [hc, ih]

theorem countNonWs_jsTrim (l : List Char) : countNonWs (jsTrim l) = countNonWs l := by
  unfold jsTrim
  rw [countNonWs_reverse, countNonWs_dropWhile, countNonWs_reverse, countNonWs_dropWhile]

theorem countNonWs_le_length (l : List Char) : countNonWs l ≤ l.length :=
  List.length_filter_le _ _

theorem clearAndRewind_chapters (p : Project) (k : Int) :
    (clearAndRewindFromChapter p k).chapters =
      p.chapters.filter (fun c => keepBelow k c.index) := rfl

theorem clearAndRewind_contracts (p : Project) (k : Int) :
    (clearAndRewindFromChapter p k).chapterContracts =
      p.chapterContracts.filter (fun c => keepBelow k c.index) := rfl

theorem clearAndRewind_ledger (p : Project) (k : Int) :
    (clearAndRewindFromChapter p k).continuityLedger =
      rebuildLedgerFromChapters (p.chapters.filter (fun c => keepBelow k c.index)) := rfl

theorem rebuildGo_cons_some (led : Ledger) (c : Chapter) (cont : Continuity)
    (rest : List Chapter) (h : c.continuity = some cont) :
    rebuildGo led none (c :: rest) = rebuildGo (mergeLedger led cont) none rest := by
  cases hc : c.index <;> simp [rebuildGo, atOrBeyondStop, hc, h]

/-- Claim C1: after `clearAndRewindFromChapter(project, k)` on a project
whose chapter records all carry numeric indices, no chapter and no
chapter-contract with index `>= k` remains, and the stored ledger equals
`rebuildLedgerFromChapters` of the retained chapters with index `< k`. -/
theorem clearAndRewind_prefix_invariant (p : Project) (k : Int)
    (hwf : ∀ c ∈ p.chapters, c.index.isSome = true) :
    (∀ c ∈ (clearAndRewindFromChapter p k).chapters, ∀ i, c.index = some i → i < k) ∧
    (∀ c ∈ (clearAndRewindFromChapter p k).chapterContracts, ∀ i, c.index = some i → i < k) ∧
    (clearAndRewindFromChapter p k).continuityLedger =
      rebuildLedgerFromChapters (p.chapters.filter (fun c => numericallyBelow k c.index)) := by
  refine ⟨?_, ?_, ?_⟩
  · intro c hc i hi
    rw [clearAndRewind_chapters] at hc
    have h2 := (List.mem_filter.mp hc).2
    rw [hi] at h2
    simpa [keepBelow] using h2
  · intro c hc i hi
    rw [clearAndRewind_contracts] at hc
    have h2 := (List.mem_filter.mp hc).2
    rw [hi] at h2
    simpa [keepBelow] using h2
  · rw [clearAndRewind_ledger]
    have : p.chapters.filter (fun c => keepBelow k c.index) =
        p.chapters.filter (fun c => numericallyBelow k c.index) := by
      apply List.filter_congr
      intro c hc
      have hs := hwf c hc
      cases hidx : c.index with
      | none => rw [hidx] at hs; cases hs
      | some i => simp [keepBelow, numericallyBelow, hidx]
    rw [this]

def demoContA : Continuity :=
  { emptyContinuity with
    charactersState := some [("Alice", "wounded")]
    openLoops := some ["the letter"] }

def demoContB : Continuity :=
  { emptyContinuity with charactersState := some [("Alice", "healed")] }

def demoChapterA : Chapter := ⟨some 1, "A", "draft A", "", some demoContA, false⟩

def demoChapterB : Chapter := ⟨some 2, "B", "draft B", "", some demoContB, false⟩

def demoContract1 : ChapterContract := ⟨some 1, "c1", [], [], [], "hook"⟩

def demoContract2 : ChapterContract := ⟨some 2, "c2", [], [], [], "hook"⟩

def demoProjectC1 : Project :=
  ⟨[demoChapterA, demoChapterB], [demoContract1, demoContract2], defaultLedger, none⟩

theorem clearAndRewind_prefix_invariant_witness :
    (∀ c ∈ demoProjectC1.chapters, c.index.isSome = true) ∧
    (clearAndRewindFromChapter demoProjectC1 2).continuityLedger =
      rebuildLedgerFromChapters
        (demoProjectC1.chapters.filter (fun c => numericallyBelow 2 c.index)) :=
  ⟨by decide, (clearAndRewind_prefix_invariant demoProjectC1 2 (by decide)).2.2⟩

/-- Claim C2: when chapters A and B (A's index strictly below B's) both
assign a value to the same `charactersState` key, rebuilding the ledger from
the chapter list — in either stored order — yields B's value for that key,
and so does incrementally merging A's facts then B's facts into any ledger. -/
theorem ledger_last_writer_wins (A B : Chapter) (a b : Int) (key vA vB : String)
    (contA contB : Continuity) (csA csB : StrMap)
    (hA : A.index = some a) (hB : B.index = some b) (hab : a < b)
    (hcA : A.continuity = some contA) (hcB : B.continuity = some contB)
    (hcsA : contA.charactersState = some csA) (hcsB : contB.charactersState = some csB)
    (_hvA : alookup csA key = some vA) (hvB : alookup csB key = some vB) :
    alookup (rebuildLedgerFromChapters [A, B]).charactersState key = some vB ∧
    alookup (rebuildLedgerFromChapters [B, A]).charactersState key = some vB ∧
    ∀ L : Ledger,
      alookup (mergeLedger (mergeLedger L contA) contB).charactersState key = some vB := by
  have hmerge : ∀ L : Ledger,
      alookup (mergeLedger (mergeLedger L contA) contB).charactersState key = some vB := by
    intro L
    simp only [mergeLedger, hcsA, hcsB, Option.getD_some]
    rw [alookup_objSpread, alookup_objSpread, hvB]
    rfl
  have hsort1 : sortByIndex [A, B] = [A, B] := by
    simp only [sortByIndex, insertSorted, chCmp, hA, hB]
    rw [if_neg (by omega)]
  have hsort2 : sortByIndex [B, A] = [A, B] := by
    simp only [sortByIndex, insertSorted, chCmp, hA, hB]
    rw [if_pos (by omega)]
  refine ⟨?_, ?_, hmerge⟩
  · show alookup (rebuildGo defaultLedger none (sortByIndex [A, B])).charactersState key = some vB
    rw [hsort1, rebuildGo_cons_some _ _ _ _ hcA, rebuildGo_cons_some _ _ _ _ hcB]
    exact hmerge defaultLedger
  · show alookup (rebuildGo defaultLedger none (sortByIndex [B, A])).charactersState key = some vB
    rw [hsort2, rebuildGo_cons_some _ _ _ _ hcA, rebuildGo_cons_some _ _ _ _ hcB]
    exact hmerge defaultLedger

theorem ledger_last_writer_wins_witness :
    alookup (rebuildLedgerFromChapters [demoChapterA, demoChapterB]).charactersState "Alice"
      = some "healed" ∧
    alookup (rebuildLedgerFromChapters [demoChapterB, demoChapterA]).charactersState "Alice"
      = some "healed" :=
  ⟨(ledger_last_writer_wins demoChapterA demoChapterB 1 2 "Alice" "wounded" "healed"
      demoContA demoContB _ _ rfl rfl (by omega) rfl rfl rfl rfl rfl rfl).1,
   (ledger_last_writer_wins demoChapterA demoChapterB 1 2 "Alice" "wounded" "healed"
      demoContA demoContB _ _ rfl rfl (by omega) rfl rfl rfl rfl rfl rfl).2.1⟩

/-- Claim C3: two calls of `rebuildLedgerFromChapters` on the same unchanged
chapter list produce ledgers that agree field for field, `openLoops` order
included (the embedding's stable sort and insertion-order `Set` make the
rebuild a deterministic function of the chapter list). -/
theorem rebuildLedger_idempotent (chs : List Chapter) (l1 l2 : Ledger)
    (h1 : l1 = rebuildLedgerFromChapters chs) (h2 : l2 = rebuildLedgerFromChapters chs) :
    l1.charactersState = l2.charactersState ∧ l1.locationsState = l2.locationsState ∧
    l1.timeline = l2.timeline ∧ l1.openLoops = l2.openLoops := by
  subst h1
  subst h2
  exact ⟨rfl, rfl, rfl, rfl⟩

theorem rebuildLedger_idempotent_witness :
    (rebuildLedgerFromChapters [demoChapterA, demoChapterB]).openLoops =
      (rebuildLedgerFromChapters [demoChapterA, demoChapterB]).openLoops :=
  (rebuildLedger_idempotent [demoChapterA, demoChapterB] _ _ rfl rfl).2.2.2

/-- Counterexample to claim C4: the `src/lib/storage.js` `mergeLedger`
concatenates `openLoops` without deduplication, so merging a fact object that
repeats an existing open loop yields a duplicate entry. -/
theorem mergeLedger_duplicates_openLoops :
    (mergeLedger { defaultLedger with openLoops := ["the letter"] }
        { emptyContinuity with openLoops := some ["the letter"] }).openLoops
      = ["the letter", "the letter"] ∧
    ¬ (["the letter", "the letter"] : List String).Nodup := by
  exact ⟨rfl, by decide⟩

/-- Claim C4 (amended): the engine's `mergeContinuityLedger` and the
`part_000` `mergeLedger` produce a duplicate-free `openLoops` equal to the
existing items in their order followed by the newly-seen supplied items in
input order; the `src/lib/storage.js` `mergeLedger` instead concatenates
without deduplication. -/
theorem mergeContinuityLedger_openLoops_set_union (ledger : Ledger) (cont : Continuity)
    (loops : List String) (h : cont.openLoops = some loops)
    (hnd : ledger.openLoops.Nodup) :
    (mergeContinuityLedger ledger cont).openLoops
        = ledger.openLoops ++ dedupSeen ledger.openLoops loops ∧
    (mergeContinuityLedger ledger cont).openLoops.Nodup ∧
    (mergeLedgerV0 ledger cont).openLoops = (mergeContinuityLedger ledger cont).openLoops := by
  have h1 : (mergeContinuityLedger ledger cont).openLoops
      = dedupFirst (ledger.openLoops ++ loops) := by
    simp [mergeContinuityLedger, h]
  refine ⟨?_, ?_, rfl⟩
  · rw [h1]
    exact dedupFirst_decomp _ _ hnd
  · rw [h1]
    exact dedupSeen_nodup _ _

theorem mergeContinuityLedger_openLoops_set_union_witness :
    (mergeContinuityLedger { defaultLedger with openLoops := ["the letter"] }
        { emptyContinuity with openLoops := some ["the letter", "the key"] }).openLoops
      = ["the letter"] ++ dedupSeen ["the letter"] ["the letter", "the key"] :=
  (mergeContinuityLedger_openLoops_set_union
    { defaultLedger with openLoops := ["the letter"] }
    { emptyContinuity with openLoops := some ["the letter", "the key"] }
    ["the letter", "the key"] rfl (by decide)).1

/-- Claim C9 (amended): the approval flag is computed from the
whitespace-trimmed length of `userText` (internal whitespace counts): it is
true iff that length exceeds 50.  Hence 51 or more non-whitespace characters
always approve, and a trimmed length of at most 50 never does — but 50 or
fewer non-whitespace characters can still approve when internal whitespace
pushes the trimmed length over 50. -/
theorem approved_threshold (u : String) :
    approvedHeuristic u = decide ((jsTrim u.data).length > 50) ∧
    (51 ≤ countNonWs u.data → approvedHeuristic u = true) ∧
    ((jsTrim u.data).length ≤ 50 → approvedHeuristic u = false) := by
  have heq : approvedHeuristic u = decide ((jsTrim u.data).length > 50) := by
    by_cases hu : u = ""
    · subst hu; rfl
    · simp [approvedHeuristic, hu]
  refine ⟨heq, ?_, ?_⟩
  · intro h51
    rw [heq]
    have h1 : countNonWs (jsTrim u.data) = countNonWs u.data := countNonWs_jsTrim _
    have h2 : countNonWs (jsTrim u.data) ≤ (jsTrim u.data).length := countNonWs_le_length _
    simp only [gt_iff_lt, decide_eq_true_eq]
    omega
  · intro hle
    rw [heq]
    simp only [gt_iff_lt, decide_eq_false_iff_not, Nat.not_lt]
    exact hle

def spacedText : String := "a a a a a a a a a a a a a a a a a a a a a a a a a a"

def demoEditChapter : Chapter := ⟨some 0, "t", "old draft", "", none, false⟩

/-- Counterexample to claim C9: a `userText` of 26 non-whitespace characters
separated by internal spaces has trimmed length 51, so `saveUserEdits`
computes `approved == true` even though the text has at most 50
non-whitespace characters. -/
theorem approved_despite_few_nonws :
    countNonWs spacedText.data = 26 ∧ countNonWs spacedText.data ≤ 50 ∧
    (saveUserEditsChapter demoEditChapter (some spacedText) none).approved = true ∧
    approvedHeuristic spacedText = true := by
  decide

theorem approved_threshold_witness :
    51 ≤ countNonWs ("b".pushn 'b' 50).data ∧ approvedHeuristic ("b".pushn 'b' 50) = true :=
  ⟨by decide, (approved_threshold ("b".pushn 'b' 50)).2.1 (by decide)⟩

/-- Claim C10: the storage-layer rewind retains every chapter and
chapter-contract record whose `index` field is not a number; only records
with a numeric index at or beyond the cutoff are removed. -/
theorem clearAndRewind_retains_malformed (p : Project) (k : Int) :
    (∀ c ∈ p.chapters, c.index = none → c ∈ (clearAndRewindFromChapter p k).chapters) ∧
    (∀ c ∈ p.chapterContracts, c.index = none →
      c ∈ (clearAndRewindFromChapter p k).chapterContracts) ∧
    (∀ c ∈ p.chapters, c ∉ (clearAndRewindFromChapter p k).chapters →
      ∃ i, c.index = some i ∧ k ≤ i) ∧
    (∀ c ∈ p.chapterContracts, c ∉ (clearAndRewindFromChapter p k).chapterContracts →
      ∃ i, c.index = some i ∧ k ≤ i) := by
  refine ⟨?_, ?_, ?_, ?_⟩
  · intro c hc hidx
    rw [clearAndRewind_chapters]
    exact List.mem_filter.mpr ⟨hc, by simp [keepBelow, hidx]⟩
  · intro c hc hidx
    rw [clearAndRewind_contracts]
    exact List.mem_filter.mpr ⟨hc, by simp [keepBelow, hidx]⟩
  · intro c hc hnot
    rw [clearAndRewind_chapters] at hnot
    cases hidx : c.index with
    | none => exact absurd (List.mem_filter.mpr ⟨hc, by simp [keepBelow, hidx]⟩) hnot
    | some i =>
      refine ⟨i, rfl, ?_⟩
      by_contra hlt
      push_neg at hlt
      exact hnot (List.mem_filter.mpr ⟨hc, by simp [keepBelow, hidx]; omega⟩)
  · intro c hc hnot
    rw [clearAndRewind_contracts] at hnot
    cases hidx : c.index with
    | none => exact absurd (List.mem_filter.mpr ⟨hc, by simp [keepBelow, hidx]⟩) hnot
    | some i =>
      refine ⟨i, rfl, ?_⟩
      by_contra hlt
      push_neg at hlt
      exact hnot (List.mem_filter.mpr ⟨hc, by simp [keepBelow, hidx]; omega⟩)

def malformedChapter : Chapter := ⟨none, "broken", "", "", none, false⟩

def demoProjectC10 : Project :=
  ⟨[malformedChapter, demoChapterA], [], defaultLedger, none⟩

theorem clearAndRewind_retains_malformed_witness :
    malformedChapter ∈ (clearAndRewindFromChapter demoProjectC10 0).chapters :=
  (clearAndRewind_retains_malformed demoProjectC10 0).1 malformedChapter (by decide) rfl

/-- Claim C5: regenerating the outline with a new chapter-summary list that
still includes index `i` keeps the previous chapter's `draftText`,
`userText`, `continuity` and `approved` at that index: the reconciliation is
a merge-by-index against the previous chapters, not an overwrite. -/
theorem generateOutline_preserves_progress (p : Project) (resp : OutlineResponse)
    (o : Outline) (cs : ChapterSummary) (old : Chapter)
    (ho : resp.outline = some o) (hcs : cs ∈ o.chapterSummaries)
    (hold : lastWithIndex p.chapters cs.index = some old)
    (_hdraft : old.draftText ≠ "") :
    ∃ c ∈ (generateOutlineApply p resp).chapters,
      c.index = some cs.index ∧ c.draftText = old.draftText ∧ c.userText = old.userText ∧
      c.continuity = old.continuity ∧ c.approved = old.approved := by
  refine ⟨{ index := some cs.index, title := cs.title, draftText := old.draftText,
            userText := old.userText, continuity := old.continuity, approved := old.approved },
          ?_, rfl, rfl, rfl, rfl, rfl⟩
  have hch : (generateOutlineApply p resp).chapters
      = reconcileChapters p.chapters o.chapterSummaries := by
    simp [generateOutlineApply, ho]
  rw [hch, reconcileChapters]
  refine List.mem_map.mpr ⟨cs, hcs, ?_⟩
  simp [hold]

def demoSummary : ChapterSummary := ⟨1, "new title", "summary"⟩

def demoOutlineResp : OutlineResponse := ⟨some ⟨"arc", [demoSummary]⟩, []⟩

def demoProjectC5 : Project := ⟨[demoChapterA], [], defaultLedger, none⟩

theorem generateOutline_preserves_progress_witness :
    ∃ c ∈ (generateOutlineApply demoProjectC5 demoOutlineResp).chapters,
      c.index = some demoSummary.index ∧ c.draftText = demoChapterA.draftText ∧
      c.userText = demoChapterA.userText ∧ c.continuity = demoChapterA.continuity ∧
      c.approved = demoChapterA.approved :=
  generateOutline_preserves_progress demoProjectC5 demoOutlineResp
    ⟨"arc", [demoSummary]⟩ demoSummary demoChapterA rfl (by decide) rfl (by decide)

def demoUndrafted2 : Chapter := ⟨some 2, "c2", "", "", none, false⟩

def demoUndrafted1 : Chapter := ⟨some 1, "c1", "", "", none, false⟩

def demoOutlineEmpty : Outline := ⟨"arc", []⟩

def demoProjectC6 : Project :=
  ⟨[demoUndrafted2, demoUndrafted1], [], defaultLedger, some demoOutlineEmpty⟩

/-- Counterexample to claim C6: on a project whose stored chapter list is out
of index order, `generateNextChapter` selects the first undrafted chapter in
list order (here index 2), not the one with the smallest index (here the
undrafted index 1). -/
theorem generateNextChapter_not_min_index :
    demoProjectC6.outline.isSome = true ∧
    demoUndrafted1 ∈ demoProjectC6.chapters ∧ demoUndrafted1.draftText = "" ∧
    demoUndrafted1.index = some 1 ∧
    (selectNextChapter demoProjectC6).map Chapter.index = some (some 2) := by
  decide

/-- Claim C6 (amended): `generateNextChapter` drafts the first chapter in
stored list order whose `draftText` is empty — the chapter of smallest index
among the undrafted ones whenever the stored list is sorted ascending by
index — and when every chapter already has a draft the call is a no-op that
returns the project unchanged and raises no error. -/
theorem generateNextChapter_selection (p : Project) (r : ChapterResponse)
    (hsorted : p.chapters.Pairwise (fun c d => chapterIdx c ≤ chapterIdx d)) :
    ((∀ c ∈ p.chapters, c.draftText ≠ "") → generateNextChapterApply p r = p) ∧
    (∀ next, selectNextChapter p = some next →
      next.draftText = "" ∧
      ∀ c ∈ p.chapters, c.draftText = "" → chapterIdx next ≤ chapterIdx c) := by
  constructor
  · intro hall
    have hnone : selectNextChapter p = none := by
      unfold selectNextChapter
      rw [List.find?_eq_none]
      intro c hc
      simp [isUndrafted, hall c hc]
    unfold generateNextChapterApply
    rw [hnone]
  · intro next hfind
    obtain ⟨h1, h2⟩ := find_undrafted_min p.chapters hsorted next hfind
    refine ⟨by simpa [isUndrafted] using h1, ?_⟩
    intro c hc hdr
    exact h2 c hc (by simp [isUndrafted, hdr])

def demoResponse : ChapterResponse := ⟨"T", "prose", some demoContB⟩

def demoProjectC6b : Project :=
  ⟨[demoChapterA, demoChapterB], [], defaultLedger, some demoOutlineEmpty⟩

theorem generateNextChapter_selection_witness :
    generateNextChapterApply demoProjectC6b demoResponse = demoProjectC6b :=
  (generateNextChapter_selection demoProjectC6b demoResponse (by decide)).1 (by decide)

def demoChapC7 : Chapter := ⟨some 1, "Old", "old draft", "", none, false⟩

def demoProjectC7 : Project := ⟨[demoChapC7], [], defaultLedger, some demoOutlineEmpty⟩

def demoRegenResp : ChapterResponse := ⟨"New", "new prose", none⟩

/-- Counterexample to claim C7: when the model response carries a title,
`regenerateChapter` overwrites the chapter's `title` too, so the update does
not touch only `draftText` and `continuity`. -/
theorem regenerateChapter_overwrites_title :
    (regenerateChapterApply demoProjectC7 1 demoRegenResp).map
        (fun q => q.chapters.map Chapter.title) = Except.ok ["New"] ∧
    demoProjectC7.chapters.map Chapter.title = ["Old"] ∧ ("New" : String) ≠ "Old" :=
  ⟨rfl, rfl, by decide⟩

/-- Claim C7 (amended): for an existing chapter index, `regenerateChapter`
overwrites the chapter's `draftText` with the response prose and its
`continuity` with the response continuity tagged `source:
"model-regenerate"`; it additionally overwrites the title when the response
provides a non-empty one and recomputes `approved` from the unchanged
`userText`; `userText` itself is left exactly as it was. -/
theorem regenerateChapter_amended (p : Project) (i : Int) (r : ChapterResponse)
    (ch : Chapter) (ho : p.outline.isSome = true)
    (hfind : p.chapters.find? (fun c => decide (c.index = some i)) = some ch) :
    regenerateChapterApply p i r =
      Except.ok
        { p with
          chapters := replaceFirst (fun c => decide (c.index = some i))
            (applyDraftResponse r "model-regenerate") p.chapters
          continuityLedger := mergeContinuityLedger p.continuityLedger
            (draftedContinuity r "model-regenerate") } ∧
    (applyDraftResponse r "model-regenerate" ch).userText = ch.userText ∧
    (applyDraftResponse r "model-regenerate" ch).draftText = r.prose ∧
    (applyDraftResponse r "model-regenerate" ch).continuity
      = some (draftedContinuity r "model-regenerate") ∧
    (draftedContinuity r "model-regenerate").source = some "model-regenerate" ∧
    (r.title = "" → (applyDraftResponse r "model-regenerate" ch).title = ch.title) ∧
    (applyDraftResponse r "model-regenerate" ch).approved = approvedHeuristic ch.userText := by
  refine ⟨?_, rfl, rfl, rfl, rfl, ?_, rfl⟩
  · have hno : p.outline.isNone = false := by
      cases hoo : p.outline
      · rw [hoo] at ho; cases ho
      · rfl
    unfold regenerateChapterApply
    rw [hno, hfind]
    rfl
  · intro ht
    simp [applyDraftResponse, ht]

theorem regenerateChapter_amended_witness :
    (applyDraftResponse demoRegenResp "model-regenerate" demoChapC7).userText
      = demoChapC7.userText ∧
    (applyDraftResponse demoRegenResp "model-regenerate" demoChapC7).continuity
      = some (draftedContinuity demoRegenResp "model-regenerate") :=
  ⟨(regenerateChapter_amended demoProjectC7 1 demoRegenResp demoChapC7 rfl rfl).2.1,
   (regenerateChapter_amended demoProjectC7 1 demoRegenResp demoChapC7 rfl rfl).2.2.2.1⟩

/-- The JSON object of the parser example: `\x7b"a":1\x7d`. -/
def exampleObj : Json := Json.obj [("a".data, Json.num ['1'])]

/-- Claim C8 (amended): the parser recovers the fenced example object from
the example input, and every failure raises an error carrying the first 400
characters of the cleaned output — it never silently returns; recovery of a
fenced object followed by garbage is however limited by the 30-step
end-truncation budget of the salvage loop. -/
theorem safeJsonParse_behaviour :
    safeJsonParse ("```json\n\x7b\"a\":1\x7d\n```garbage after".data) = Except.ok exampleObj ∧
    ∀ text err, safeJsonParse text = Except.error err →
      ∃ pre, err = pre ++ (cleanText text).take 400 := by
  constructor
  · rfl
  · intro text err h
    unfold safeJsonParse at h
    dsimp only at h
    cases hp : parseJson (cleanText text) with
    | some v => rw [hp] at h; cases h
    | none =>
      rw [hp] at h
      by_cases hb : (indexOfChar (cleanText text) '{' = -1 ∨
          lastIndexOfChar (cleanText text) '}' = -1 ∨
          lastIndexOfChar (cleanText text) '}' ≤ indexOfChar (cleanText text) '{')
      · rw [if_pos hb] at h
        injection h with h
        exact ⟨_, h.symm⟩
      · rw [if_neg hb] at h
        cases hs : salvage (indexOfChar (cleanText text) '{') 30
            (jsSlice (cleanText text) (indexOfChar (cleanText text) '{')
              (lastIndexOfChar (cleanText text) '}' + 1)) with
        | some v => rw [hs] at h; cases h
        | none =>
          rw [hs] at h
          injection h with h
          exact ⟨_, h.symm⟩

def fencedGarbageTail : List Char :=
  (List.replicate 33 ("g\n".data)).flatten ++ "\x7d".data

/-- A model output consisting of a code-fenced JSON object followed by
trailing garbage whose last `\x7d` lies more than 30 lines past the object. -/
def badFencedOutput : List Char :=
  "```json\n\x7b\"a\":1\x7d\n```\n".data ++ fencedGarbageTail


theorem salvage_step (first : Int) (n : Nat) (cand cand2 : List Char)
    (hp : parseJson cand = none)
    (htrim : (if first < lastIndexOfChar cand '\n'
        then jsTrim (jsSlice cand 0 (lastIndexOfChar cand '\n'))
        else jsTrim (jsSlice cand 0 ((cand.length : Int) - 1))) = cand2)
    (hlen : ¬ cand2.length ≤ 2) :
    salvage first (n + 1) cand = salvage first n cand2 := by
  simp only [salvage, hp]
  rw [htrim, if_neg hlen]

/-- The salvage-loop candidates traversed on `badFencedOutput`. -/
def cexCand0 : List Char := "\x7b\"a\":1\x7d\n\ng\ng\ng\ng\ng\ng\ng\ng\ng\ng\ng\ng\ng\ng\ng\ng\ng\ng\ng\ng\ng\ng\ng\ng\ng\ng\ng\ng\ng\ng\ng\ng\ng\n\x7d".data

def cexCand1 : List Char := "\x7b\"a\":1\x7d\n\ng\ng\ng\ng\ng\ng\ng\ng\ng\ng\ng\ng\ng\ng\ng\ng\ng\ng\ng\ng\ng\ng\ng\ng\ng\ng\ng\ng\ng\ng\ng\ng\ng".data

def cexCand2 : List Char := "\x7b\"a\":1\x7d\n\ng\ng\ng\ng\ng\ng\ng\ng\ng\ng\ng\ng\ng\ng\ng\ng\ng\ng\ng\ng\ng\ng\ng\ng\ng\ng\ng\ng\ng\ng\ng\ng".data

def cexCand3 : List Char := "\x7b\"a\":1\x7d\n\ng\ng\ng\ng\ng\ng\ng\ng\ng\ng\ng\ng\ng\ng\ng\ng\ng\ng\ng\ng\ng\ng\ng\ng\ng\ng\ng\ng\ng\ng\ng".data

def cexCand4 : List Char := "\x7b\"a\":1\x7d\n\ng\ng\ng\ng\ng\ng\ng\ng\ng\ng\ng\ng\ng\ng\ng\ng\ng\ng\ng\ng\ng\ng\ng\ng\ng\ng\ng\ng\ng\ng".data

def cexCand5 : List Char := "\x7b\"a\":1\x7d\n\ng\ng\ng\ng\ng\ng\ng\ng\ng\ng\ng\ng\ng\ng\ng\ng\ng\ng\ng\ng\ng\ng\ng\ng\ng\ng\ng\ng\ng".data

def cexCand6 : List Char := "\x7b\"a\":1\x7d\n\ng\ng\ng\ng\ng\ng\ng\ng\ng\ng\ng\ng\ng\ng\ng\ng\ng\ng\ng\ng\ng\ng\ng\ng\ng\ng\ng\ng".data

def cexCand7 : List Char := "\x7b\"a\":1\x7d\n\ng\ng\ng\ng\ng\ng\ng\ng\ng\ng\ng\ng\ng\ng\ng\ng\ng\ng\ng\ng\ng\ng\ng\ng\ng\ng\ng".data

def cexCand8 : List Char := "\x7b\"a\":1\x7d\n\ng\ng\ng\ng\ng\ng\ng\ng\ng\ng\ng\ng\ng\ng\ng\ng\ng\ng\ng\ng\ng\ng\ng\ng\ng\ng".data

def cexCand9 : List Char := "\x7b\"a\":1\x7d\n\ng\ng\ng\ng\ng\ng\ng\ng\ng\ng\ng\ng\ng\ng\ng\ng\ng\ng\ng\ng\ng\ng\ng\ng\ng".data

def cexCand10 : List Char := "\x7b\"a\":1\x7d\n\ng\ng\ng\ng\ng\ng\ng\ng\ng\ng\ng\ng\ng\ng\ng\ng\ng\ng\ng\ng\ng\ng\ng\ng".data

def cexCand11 : List Char := "\x7b\"a\":1\x7d\n\ng\ng\ng\ng\ng\ng\ng\ng\ng\ng\ng\ng\ng\ng\ng\ng\ng\ng\ng\ng\ng\ng\ng".data

def cexCand12 : List Char := "\x7b\"a\":1\x7d\n\ng\ng\ng\ng\ng\ng\ng\ng\ng\ng\ng\ng\ng\ng\ng\ng\ng\ng\ng\ng\ng\ng".data

def cexCand13 : List Char := "\x7b\"a\":1\x7d\n\ng\ng\ng\ng\ng\ng\ng\ng\ng\ng\ng\ng\ng\ng\ng\ng\ng\ng\ng\ng\ng".data

def cexCand14 : List Char := "\x7b\"a\":1\x7d\n\ng\ng\ng\ng\ng\ng\ng\ng\ng\ng\ng\ng\ng\ng\ng\ng\ng\ng\ng\ng".data

def cexCand15 : List Char := "\x7b\"a\":1\x7d\n\ng\ng\ng\ng\ng\ng\ng\ng\ng\ng\ng\ng\ng\ng\ng\ng\ng\ng\ng".data

def cexCand16 : List Char := "\x7b\"a\":1\x7d\n\ng\ng\ng\ng\ng\ng\ng\ng\ng\ng\ng\ng\ng\ng\ng\ng\ng\ng".data

def cexCand17 : List Char := "\x7b\"a\":1\x7d\n\ng\ng\ng\ng\ng\ng\ng\ng\ng\ng\ng\ng\ng\ng\ng\ng\ng".data

def cexCand18 : List Char := "\x7b\"a\":1\x7d\n\ng\ng\ng\ng\ng\ng\ng\ng\ng\ng\ng\ng\ng\ng\ng\ng".data

def cexCand19 : List Char := "\x7b\"a\":1\x7d\n\ng\ng\ng\ng\ng\ng\ng\ng\ng\ng\ng\ng\ng\ng\ng".data

def cexCand20 : List Char := "\x7b\"a\":1\x7d\n\ng\ng\ng\ng\ng\ng\ng\ng\ng\ng\ng\ng\ng\ng".data

def cexCand21 : List Char := "\x7b\"a\":1\x7d\n\ng\ng\ng\ng\ng\ng\ng\ng\ng\ng\ng\ng\ng".data

def cexCand22 : List Char := "\x7b\"a\":1\x7d\n\ng\ng\ng\ng\ng\ng\ng\ng\ng\ng\ng\ng".data

def cexCand23 : List Char := "\x7b\"a\":1\x7d\n\ng\ng\ng\ng\ng\ng\ng\ng\ng\ng\ng".data

def cexCand24 : List Char := "\x7b\"a\":1\x7d\n\ng\ng\ng\ng\ng\ng\ng\ng\ng\ng".data

def cexCand25 : List Char := "\x7b\"a\":1\x7d\n\ng\ng\ng\ng\ng\ng\ng\ng\ng".data

def cexCand26 : List Char := "\x7b\"a\":1\x7d\n\ng\ng\ng\ng\ng\ng\ng\ng".data

def cexCand27 : List Char := "\x7b\"a\":1\x7d\n\ng\ng\ng\ng\ng\ng\ng".data

def cexCand28 : List Char := "\x7b\"a\":1\x7d\n\ng\ng\ng\ng\ng\ng".data

def cexCand29 : List Char := "\x7b\"a\":1\x7d\n\ng\ng\ng\ng\ng".data

def cexCand30 : List Char := "\x7b\"a\":1\x7d\n\ng\ng\ng\ng".data

set_option maxRecDepth 4000 in
/-- Counterexample to claim C8: for this code-fenced JSON object followed by
trailing garbage (whose last `\x7d` lies more than 30 truncation steps past
the object) the salvage loop exhausts its 30 attempts, so the parser raises
an error instead of returning the fenced object. -/
theorem safeJsonParse_salvage_budget :
    parseJson ("\x7b\"a\":1\x7d".data) = some exampleObj ∧
    exceptIsOk (safeJsonParse badFencedOutput) = false := by
  refine ⟨rfl, ?_⟩
  have hclean : cleanText badFencedOutput = cexCand0 := rfl
  have hparse : parseJson cexCand0 = none := rfl
  have hfirst : indexOfChar cexCand0 '{' = 0 := rfl
  have hlast : lastIndexOfChar cexCand0 '}' = 75 := rfl
  have hslice : jsSlice cexCand0 0 (75 + 1) = cexCand0 := rfl
  have e0 : salvage 0 30 cexCand0 = salvage 0 29 cexCand1 :=
    salvage_step 0 29 cexCand0 cexCand1 rfl rfl (by decide)
  have e1 : salvage 0 29 cexCand1 = salvage 0 28 cexCand2 :=
    salvage_step 0 28 cexCand1 cexCand2 rfl rfl (by decide)
  have e2 : salvage 0 28 cexCand2 = salvage 0 27 cexCand3 :=
    salvage_step 0 27 cexCand2 cexCand3 rfl rfl (by decide)
  have e3 : salvage 0 27 cexCand3 = salvage 0 26 cexCand4 :=
    salvage_step 0 26 cexCand3 cexCand4 rfl rfl (by decide)
  have e4 : salvage 0 26 cexCand4 = salvage 0 25 cexCand5 :=
    salvage_step 0 25 cexCand4 cexCand5 rfl rfl (by decide)
  have e5 : salvage 0 25 cexCand5 = salvage 0 24 cexCand6 :=
    salvage_step 0 24 cexCand5 cexCand6 rfl rfl (by decide)
  have e6 : salvage 0 24 cexCand6 = salvage 0 23 cexCand7 :=
    salvage_step 0 23 cexCand6 cexCand7 rfl rfl (by decide)
  have e7 : salvage 0 23 cexCand7 = salvage 0 22 cexCand8 :=
    salvage_step 0 22 cexCand7 cexCand8 rfl rfl (by decide)
  have e8 : salvage 0 22 cexCand8 = salvage 0 21 cexCand9 :=
    salvage_step 0 21 cexCand8 cexCand9 rfl rfl (by decide)
  have e9 : salvage 0 21 cexCand9 = salvage 0 20 cexCand10 :=
    salvage_step 0 20 cexCand9 cexCand10 rfl rfl (by decide)
  have e10 : salvage 0 20 cexCand10 = salvage 0 19 cexCand11 :=
    salvage_step 0 19 cexCand10 cexCand11 rfl rfl (by decide)
  have e11 : salvage 0 19 cexCand11 = salvage 0 18 cexCand12 :=
    salvage_step 0 18 cexCand11 cexCand12 rfl rfl (by decide)
  have e12 : salvage 0 18 cexCand12 = salvage 0 17 cexCand13 :=
    salvage_step 0 17 cexCand12 cexCand13 rfl rfl (by decide)
  have e13 : salvage 0 17 cexCand13 = salvage 0 16 cexCand14 :=
    salvage_step 0 16 cexCand13 cexCand14 rfl rfl (by decide)
  have e14 : salvage 0 16 cexCand14 = salvage 0 15 cexCand15 :=
    salvage_step 0 15 cexCand14 cexCand15 rfl rfl (by decide)
  have e15 : salvage 0 15 cexCand15 = salvage 0 14 cexCand16 :=
    salvage_step 0 14 cexCand15 cexCand16 rfl rfl (by decide)
  have e16 : salvage 0 14 cexCand16 = salvage 0 13 cexCand17 :=
    salvage_step 0 13 cexCand16 cexCand17 rfl rfl (by decide)
  have e17 : salvage 0 13 cexCand17 = salvage 0 12 cexCand18 :=
    salvage_step 0 12 cexCand17 cexCand18 rfl rfl (by decide)
  have e18 : salvage 0 12 cexCand18 = salvage 0 11 cexCand19 :=
    salvage_step 0 11 cexCand18 cexCand19 rfl rfl (by decide)
  have e19 : salvage 0 11 cexCand19 = salvage 0 10 cexCand20 :=
    salvage_step 0 10 cexCand19 cexCand20 rfl rfl (by decide)
  have e20 : salvage 0 10 cexCand20 = salvage 0 9 cexCand21 :=
    salvage_step 0 9 cexCand20 cexCand21 rfl rfl (by decide)
  have e21 : salvage 0 9 cexCand21 = salvage 0 8 cexCand22 :=
    salvage_step 0 8 cexCand21 cexCand22 rfl rfl (by decide)
  have e22 : salvage 0 8 cexCand22 = salvage 0 7 cexCand23 :=
    salvage_step 0 7 cexCand22 cexCand23 rfl rfl (by decide)
  have e23 : salvage 0 7 cexCand23 = salvage 0 6 cexCand24 :=
    salvage_step 0 6 cexCand23 cexCand24 rfl rfl (by decide)
  have e24 : salvage 0 6 cexCand24 = salvage 0 5 cexCand25 :=
    salvage_step 0 5 cexCand24 cexCand25 rfl rfl (by decide)
  have e25 : salvage 0 5 cexCand25 = salvage 0 4 cexCand26 :=
    salvage_step 0 4 cexCand25 cexCand26 rfl rfl (by decide)
  have e26 : salvage 0 4 cexCand26 = salvage 0 3 cexCand27 :=
    salvage_step 0 3 cexCand26 cexCand27 rfl rfl (by decide)
  have e27 : salvage 0 3 cexCand27 = salvage 0 2 cexCand28 :=
    salvage_step 0 2 cexCand27 cexCand28 rfl rfl (by decide)
  have e28 : salvage 0 2 cexCand28 = salvage 0 1 cexCand29 :=
    salvage_step 0 1 cexCand28 cexCand29 rfl rfl (by decide)
  have e29 : salvage 0 1 cexCand29 = salvage 0 0 cexCand30 :=
    salvage_step 0 0 cexCand29 cexCand30 rfl rfl (by decide)
  have efin : salvage 0 0 cexCand30 = none := rfl
  unfold safeJsonParse
  dsimp only
  rw [hclean, hparse]
  dsimp only
  rw [hfirst, hlast, if_neg (by decide), hslice]
  rw [e0, e1, e2, e3, e4, e5, e6, e7, e8, e9, e10, e11, e12, e13, e14, e15, e16, e17, e18, e19, e20, e21, e22, e23, e24, e25, e26, e27, e28, e29, efin]
  rfl

def truncatedOutput : List Char := "\x7b\"a\": 1, \"b\": [1,2,".data

theorem safeJsonParse_behaviour_witness :
    ∃ pre,
      ("Model did not return JSON. First 400 chars: ".data ++
          (cleanText truncatedOutput).take 400)
        = pre ++ (cleanText truncatedOutput).take 400 :=
  safeJsonParse_behaviour.2 truncatedOutput
    ("Model did not return JSON. First 400 chars: ".data ++
      (cleanText truncatedOutput).take 400) rfl
